import Mathlib

/-!
Verification of the chat client's conversation controller (`useChat`) and its
LLM provider layer (`GoogleGenAIProvider`, `OpenAIProvider`, registry types).

The TypeScript source is embedded shallowly:
* `Message`, `ImageAttachment`, `LLMMessage`, `LLMConfig` mirror the type
  declarations in `types/chat.ts` and `types/llm.ts`;
* the `useChat` hook's state updates are modelled as pure functions on a
  `ChatState` record (messages, `isLoading` flag, optional error string);
* async streaming is modelled by passing the finite list of text fragments the
  provider yields; the abort path is not exercised by the claims below;
* provider constructors are `Except String` valued, mirroring `throw new Error`.
-/

namespace ChatApp

/-- JS `String.prototype.trim`: strip whitespace from both ends
(modelled on the character list of the string). -/
def strTrim (s : String) : String :=
  ⟨((s.toList.dropWhile Char.isWhitespace).reverse.dropWhile Char.isWhitespace).reverse⟩

/-- `ImageAttachment` from `types/chat.ts`. -/
structure ImageAttachment where
  id : String
  name : String
  type : String
  size : Nat
  base64 : String
  url : String
deriving DecidableEq, Repr

/-- Message role: `"user" | "assistant"` in `types/chat.ts`. -/
inductive Role where
  | user
  | assistant
deriving DecidableEq, Repr

/-- `Message` from `types/chat.ts`.  The optional `isLoading` flag is modelled
as a `Bool` (absent = `false`), the optional `images` as a list (absent = `[]`).
The `timestamp` field is irrelevant to every claim and omitted. -/
structure Message where
  id : Nat
  content : String
  role : Role
  isLoading : Bool
  images : List ImageAttachment
deriving DecidableEq, Repr

/-- The conversation controller's observable state: the `messages`,
`isLoading` and `error` `useState` cells of `useChat`. -/
structure ChatState where
  messages : List Message
  isLoading : Bool
  error : Option String
deriving DecidableEq, Repr

/-- The user message built by `sendMessage` (content is `content.trim()`). -/
def mkUserMessage (uid : Nat) (content : String) (images : List ImageAttachment) : Message :=
  { id := uid, content := strTrim content, role := .user, isLoading := false, images := images }

/-- The loading assistant placeholder built by `sendMessage` / `retryLastMessage`. -/
def mkLoadingMessage (aid : Nat) : Message :=
  { id := aid, content := "", role := .assistant, isLoading := true, images := [] }

/-- Guard of `sendMessage`:
`if ((!content.trim() && !images?.length) || isLoading) return;`. -/
def sendBlocked (s : ChatState) (content : String) (images : List ImageAttachment) : Prop :=
  (strTrim content = "" ∧ images = []) ∨ s.isLoading = true

instance (s : ChatState) (content : String) (images : List ImageAttachment) :
    Decidable (sendBlocked s content images) := by
  unfold sendBlocked; infer_instance

/-- The first state update of `sendMessage`: append the finalized user message
and the loading placeholder in one update, set the loading flag, clear the
error (`setMessages(prev => [...prev, userMessage, loadingMessage])`,
`setIsLoading(true)`, `setError(null)`). -/
def sendMessageStart (s : ChatState) (content : String) (images : List ImageAttachment)
    (uid aid : Nat) : ChatState :=
  if sendBlocked s content images then s
  else
    { messages := s.messages ++ [mkUserMessage uid content images, mkLoadingMessage aid],
      isLoading := true,
      error := none }

/-- One chunk-merge update: `prev.map(msg => msg.id === assistantMessageId ?
{...msg, content: accumulatedContent, isLoading: false} : msg)`. -/
def mergeChunk (msgs : List Message) (aid : Nat) (acc : String) : List Message :=
  msgs.map fun m =>
    if m.id = aid then { m with content := acc, isLoading := false } else m

/-- The `for await` loop of `sendMessage`: starting from accumulated text
`acc`, consume the remaining fragments, applying a chunk-merge update after
each one.  Returns the message list and the accumulated content. -/
def streamLoop (msgs : List Message) (aid : Nat) (acc : String) :
    List String → List Message × String
  | [] => (msgs, acc)
  | c :: cs =>
      streamLoop (mergeChunk msgs aid (acc ++ c)) aid (acc ++ c) cs

/-- The final update of `sendMessage` plus the `finally` block:
content becomes `accumulatedContent || "No response generated."` (JS `||`
treats the empty string as falsy), `isLoading` of the placeholder and the
state-level loading flag are cleared. -/
def finalizeTurn (s : ChatState) (aid : Nat) (acc : String) : ChatState :=
  { messages := mergeChunk s.messages aid (if acc = "" then "No response generated." else acc),
    isLoading := false,
    error := s.error }

/-- The `catch` branch of `sendMessage` for a non-abort error plus the
`finally` block: set `error` to the thrown error's message, remove the
loading placeholder (`prev.filter(msg => msg.id !== assistantMessageId)`),
clear the loading flag. -/
def errorTurn (s : ChatState) (aid : Nat) (emsg : String) : ChatState :=
  { messages := s.messages.filter fun m => m.id ≠ aid,
    isLoading := false,
    error := some emsg }

/-- A whole successful `sendMessage` turn in which the provider yields the
fragment list `chunks` and then completes normally. -/
def sendMessageRun (s : ChatState) (content : String) (images : List ImageAttachment)
    (uid aid : Nat) (chunks : List String) : ChatState :=
  if sendBlocked s content images then s
  else
    let s1 := sendMessageStart s content images uid aid
    let r := streamLoop s1.messages aid "" chunks
    finalizeTurn { s1 with messages := r.1 } aid r.2

/-- A `sendMessage` turn in which the provider yields `chunks` and then
throws a non-abort error whose message is `emsg`. -/
def sendMessageRunErr (s : ChatState) (content : String) (images : List ImageAttachment)
    (uid aid : Nat) (chunks : List String) (emsg : String) : ChatState :=
  if sendBlocked s content images then s
  else
    let s1 := sendMessageStart s content images uid aid
    let r := streamLoop s1.messages aid "" chunks
    errorTurn { s1 with messages := r.1 } aid emsg

/-- `clearChat`: empty the list, clear error, clear the loading flag. -/
def clearChat (_s : ChatState) : ChatState :=
  { messages := [], isLoading := false, error := none }

/-- `[...messages].reverse().find(msg => msg.role === "user")`. -/
def lastUser? (msgs : List Message) : Option Message :=
  msgs.reverse.find? fun m => m.role = .user

/-- `retryLastMessage`'s first update: drop the last element when it is an
assistant message (`prev.slice(0, prev.length - 1)`). -/
def removeTrailingAssistant (msgs : List Message) : List Message :=
  match msgs.getLast? with
  | some m => if m.role = .assistant then msgs.dropLast else msgs
  | none => msgs

/-- Guard of `retryLastMessage`: `if (!lastUserMessage || isLoading) return;`. -/
def retryBlocked (s : ChatState) : Prop :=
  lastUser? s.messages = none ∨ s.isLoading = true

instance (s : ChatState) : Decidable (retryBlocked s) := by
  unfold retryBlocked; infer_instance

/-- The state updates `retryLastMessage` performs before streaming: remove a
trailing assistant message, append a fresh loading placeholder, set the
loading flag, clear the error. -/
def retryStart (s : ChatState) (aid : Nat) : ChatState :=
  if retryBlocked s then s
  else
    { messages := removeTrailingAssistant s.messages ++ [mkLoadingMessage aid],
      isLoading := true,
      error := none }

/-- The history `retryLastMessage` sends to the provider:
`messages.filter(msg => msg.role === "user" || msg.id !== messages[messages.length-1]?.id)`
followed by `conversationHistory.push(lastUserMessage)`. -/
def retryHistory (msgs : List Message) : List Message :=
  match lastUser? msgs with
  | none => []
  | some lu =>
      (msgs.filter fun m =>
        decide (m.role = .user) || (match msgs.getLast? with
          | none => true
          | some l => decide (m.id ≠ l.id))) ++ [lu]

/-! ### Provider layer (`types/llm.ts`, `google-genai.provider.ts`) -/

/-- Role of a provider-boundary message: `"user" | "assistant" | "system"`. -/
inductive LLMRole where
  | user
  | assistant
  | system
deriving DecidableEq, Repr

/-- Image shape of `LLMMessage` in `types/llm.ts`: `{type, data}`. -/
structure LLMImage where
  type : String
  data : String
deriving DecidableEq, Repr

/-- `LLMMessage` from `types/llm.ts` (optional `images` = `[]` when absent). -/
structure LLMMessage where
  role : LLMRole
  content : String
  images : List LLMImage
deriving DecidableEq, Repr

/-- `LLMConfig` from `types/llm.ts` (`model` and `baseURL` optional;
the index-signature extras are irrelevant to the claims). -/
structure LLMConfig where
  apiKey : String
  model : Option String
  baseURL : Option String
deriving DecidableEq, Repr

/-- `convertToLLMMessage` from the `useChat` hook. -/
def convertToLLMMessage (m : Message) : LLMMessage :=
  { role := match m.role with | .user => .user | .assistant => .assistant,
    content := m.content,
    images := m.images.map fun img => { type := img.type, data := img.base64 } }

/-! #### Math keyword detection

`detectMathContent` runs the regex
`\b(equation|formula|...|x\^|\^2|sqrt|fraction|percent)\b` over the
lower-cased conversation text.  We model the regex by its matching semantics:
some keyword occurs as a substring with a JS word boundary (`\b`) on each
side, where a word character is `[a-z0-9_]` (ASCII, the text being
lower-cased) and positions outside the string count as non-word. -/

/-- JS `\w` on lower-cased ASCII text. -/
def isWordChar (c : Char) : Bool :=
  c.isAlphanum || c = '_'

/-- Word-character-ness of an optional character (out of range = non-word). -/
def optWordChar : Option Char → Bool
  | some c => isWordChar c
  | none => false

/-- JS `\b` between two adjacent positions: word-ness differs. -/
def boundaryDiff (a b : Option Char) : Bool :=
  optWordChar a != optWordChar b

/-- `listPrefixEq k cs`: `k` is a literal prefix of `cs`. -/
def listPrefixEq : List Char → List Char → Bool
  | [], _ => true
  | _ :: _, [] => false
  | a :: as, b :: bs => a == b && listPrefixEq as bs

/-- The keyword alternation matches at the current position (`prev` is the
character just before it): literal prefix match with `\b` on both sides. -/
def matchKeywordAt (prev : Option Char) (cs : List Char) (k : List Char) : Bool :=
  match k with
  | [] => false
  | kh :: _ =>
      listPrefixEq k cs &&
      boundaryDiff prev (some kh) &&
      boundaryDiff k.getLast? (cs.drop k.length).head?

/-- The keyword list of `detectMathContent`'s regex, in source order. -/
def mathKeywords : List String :=
  ["equation", "formula", "math", "solve", "calculate", "quadratic", "algebra",
   "geometry", "calculus", "function", "derivative", "integral", "matrix",
   "vector", "polynomial", "coefficient", "variable", "solution", "theorem",
   "proof", "x^", "^2", "sqrt", "fraction", "percent"]

/-- Scan every position of the text for a keyword match. -/
def scanMathText : List Char → Option Char → Bool
  | [], _ => false
  | c :: rest, prev =>
      mathKeywords.any (fun k => matchKeywordAt prev (c :: rest) k.toList) ||
      scanMathText rest (some c)

/-- `GoogleGenAIProvider.detectMathContent` / `OpenAIProvider.detectMathContent`:
the regex `.test` on the given text. -/
def detectMathContent (text : String) : Bool :=
  scanMathText text.toList none

/-- JS `Array.prototype.join(" ")` at the character level. -/
def joinSpaceChars : List String → List Char
  | [] => []
  | [s] => s.toList
  | s :: rest => s.toList ++ ' ' :: joinSpaceChars rest

/-- `messages.map(m => m.content).join(" ").toLowerCase()`. -/
def conversationText (msgs : List LLMMessage) : String :=
  ⟨(joinSpaceChars (msgs.map LLMMessage.content)).map Char.toLower⟩

/-! #### Google GenAI provider -/

/-- A part of a Google GenAI content turn: `{text}` or
`{inlineData: {mimeType, data}}`. -/
inductive GPart where
  | text : String → GPart
  | inlineData : (mimeType : String) → (data : String) → GPart
deriving DecidableEq, Repr

/-- A Google GenAI content turn: `{role, parts}`. -/
structure GContent where
  role : String
  parts : List GPart
deriving DecidableEq, Repr

/-- The per-message conversion inside
`GoogleGenAIProvider.generateStreamingResponse`: role `"user"` maps to wire
role `"user"`, every other role to `"model"`; a text part is pushed only when
`msg.content` is truthy (for user turns the loaded system prompt is prepended
as `prompt + "\n\nUser: " + content`), then one `inlineData` part per image. -/
def toGoogleContent (prompt : String) (msg : LLMMessage) : GContent :=
  { role := if msg.role = .user then "user" else "model",
    parts :=
      (if msg.content ≠ "" then
        [GPart.text (if msg.role = .user then
            prompt ++ "\n\nUser: " ++ msg.content else msg.content)]
       else []) ++
      msg.images.map fun img => GPart.inlineData img.type img.data }

/-- `GoogleGenAIProvider.createMathInstruction` as shipped: a `"model"` turn
whose single text part is the empty string (the instruction body is
commented out in the source). -/
def createMathInstruction : GContent :=
  { role := "model", parts := [GPart.text ""] }

/-- The `contents` array `GoogleGenAIProvider.generateStreamingResponse`
sends: the converted history, with `createMathInstruction` `unshift`ed in
front when the math-keyword scan fires. -/
def googleContents (prompt : String) (msgs : List LLMMessage) : List GContent :=
  let contents := msgs.map (toGoogleContent prompt)
  if detectMathContent (conversationText msgs) then
    createMathInstruction :: contents
  else contents

/-- State of a constructed `GoogleGenAIProvider` (the SDK client plus the
resolved model string). -/
structure GoogleGenAIProvider where
  clientApiKey : String
  model : String
deriving DecidableEq, Repr

/-- The `GoogleGenAIProvider` constructor: throws when `config.apiKey` is
falsy (absent/empty); otherwise builds the client and resolves the model
via `config.model || "gemma-3-27b-it"`. -/
def GoogleGenAIProvider.construct (config : LLMConfig) : Except String GoogleGenAIProvider :=
  if config.apiKey = "" then .error "Google GenAI API key is required"
  else .ok { clientApiKey := config.apiKey,
             model := match config.model with
               | some m => if m = "" then "gemma-3-27b-it" else m
               | none => "gemma-3-27b-it" }

/-- `GoogleGenAIProvider.isConfigured`: `!!this.client` — the client object is
always constructed, hence truthy. -/
def GoogleGenAIProvider.isConfigured (_p : GoogleGenAIProvider) : Bool :=
  true

/-! #### OpenAI provider -/

/-- State of a constructed `OpenAIProvider`. -/
structure OpenAIProvider where
  apiKey : String
  model : String
  baseURL : String
deriving DecidableEq, Repr

/-- The `OpenAIProvider` constructor: throws when `config.apiKey` is falsy;
otherwise resolves `config.model || "gpt-4"` and
`config.baseURL || "https://api.openai.com/v1"`. -/
def OpenAIProvider.construct (config : LLMConfig) : Except String OpenAIProvider :=
  if config.apiKey = "" then .error "OpenAI API key is required"
  else .ok { apiKey := config.apiKey,
             model := match config.model with
               | some m => if m = "" then "gpt-4" else m
               | none => "gpt-4",
             baseURL := match config.baseURL with
               | some b => if b = "" then "https://api.openai.com/v1" else b
               | none => "https://api.openai.com/v1" }

/-- `OpenAIProvider.isConfigured`: `!!this.apiKey`. -/
def OpenAIProvider.isConfigured (p : OpenAIProvider) : Bool :=
  p.apiKey != ""

/-- The per-line loop of `OpenAIProvider.generateStreamingResponse` over the
newline-buffered lines of the response body.  `parse` abstracts
`JSON.parse` plus the `choices?.[0]?.delta?.content` extraction:
`none` = `JSON.parse` threw (line silently skipped), `some none` = parsed but
no content field, `some (some c)` = content string `c` (yielded only when
truthy, i.e. non-empty).  A `data: ` line whose payload is the literal
`[DONE]` sentinel `return`s, ending the whole fragment sequence. -/
def processLines (parse : String → Option (Option String)) :
    List String → List String
  | [] => []
  | line :: rest =>
      if listPrefixEq "data: ".toList line.toList then
        let data : String := ⟨line.toList.drop 6⟩
        if data = "[DONE]" then []
        else
          match parse data with
          | none => processLines parse rest
          | some none => processLines parse rest
          | some (some c) =>
              if c = "" then processLines parse rest
              else c :: processLines parse rest
      else processLines parse rest

/-! ### Step machine for the controller invariant

The controller's observable updates, at the granularity of individual state
transitions: starting a send or retry turn, one chunk-merge, settling a turn
(normal completion), failing a turn (non-abort error), clearing the chat.
`currentAid` records the placeholder id of the in-flight turn; the chunk,
settle and fail updates of a turn act on that id, exactly as the closures in
`useChat` capture `assistantMessageId`. -/

/-- Left-to-right concatenation of the yielded fragments
(`accumulatedContent += chunk` over the whole stream). -/
def concatChunks : List String → String
  | [] => ""
  | c :: cs => c ++ concatChunks cs

/-- Controller state plus the id of the in-flight turn's placeholder. -/
structure CtrlState where
  chat : ChatState
  currentAid : Option Nat
deriving DecidableEq, Repr

/-- `sendMessage`'s initial updates as a controller transition. -/
def sendStartC (c : CtrlState) (content : String) (images : List ImageAttachment)
    (uid aid : Nat) : CtrlState :=
  { chat := sendMessageStart c.chat content images uid aid,
    currentAid := if sendBlocked c.chat content images then c.currentAid else some aid }

/-- `retryLastMessage`'s initial updates as a controller transition. -/
def retryStartC (c : CtrlState) (aid : Nat) : CtrlState :=
  { chat := retryStart c.chat aid,
    currentAid := if retryBlocked c.chat then c.currentAid else some aid }

/-- One chunk-merge update of the in-flight turn. -/
def chunkStepC (c : CtrlState) (acc : String) : CtrlState :=
  match c.currentAid with
  | none => c
  | some aid =>
      { chat := { c.chat with messages := mergeChunk c.chat.messages aid acc },
        currentAid := c.currentAid }

/-- Normal completion of the in-flight turn (final merge plus `finally`). -/
def finalizeC (c : CtrlState) (acc : String) : CtrlState :=
  match c.currentAid with
  | none => c
  | some aid => { chat := finalizeTurn c.chat aid acc, currentAid := none }

/-- Non-abort failure of the in-flight turn (`catch` plus `finally`). -/
def errorC (c : CtrlState) (emsg : String) : CtrlState :=
  match c.currentAid with
  | none => c
  | some aid => { chat := errorTurn c.chat aid emsg, currentAid := none }

/-- `clearChat` as a controller transition. -/
def clearC (c : CtrlState) : CtrlState :=
  { chat := clearChat c.chat, currentAid := c.currentAid }

/-- One observable operation of the conversation controller. -/
inductive Step : CtrlState → CtrlState → Prop where
  | send (c : CtrlState) (content : String) (images : List ImageAttachment) (uid aid : Nat) :
      Step c (sendStartC c content images uid aid)
  | chunk (c : CtrlState) (acc : String) : Step c (chunkStepC c acc)
  | settle (c : CtrlState) (acc : String) : Step c (finalizeC c acc)
  | fail (c : CtrlState) (emsg : String) : Step c (errorC c emsg)
  | clear (c : CtrlState) : Step c (clearC c)
  | retry (c : CtrlState) (aid : Nat) : Step c (retryStartC c aid)

/-- The initial controller state of `useChat`: no messages, not loading,
no error, no turn in flight. -/
def initCtrl : CtrlState :=
  { chat := { messages := [], isLoading := false, error := none }, currentAid := none }

/-- States reachable from the initial state by controller operations. -/
inductive Reachable : CtrlState → Prop where
  | init : Reachable initCtrl
  | step {c c' : CtrlState} : Reachable c → Step c c' → Reachable c'

/-- The loading invariant: at most one message has `isLoading = true`, and any
loading message is the last element, the state-level loading flag is set, and
the in-flight turn targets exactly that message. -/
def LoadingInv (c : CtrlState) : Prop :=
  (c.chat.messages.filter fun m => m.isLoading).length ≤ 1 ∧
  ∀ m ∈ c.chat.messages, m.isLoading = true →
    c.chat.messages.getLast? = some m ∧
    c.chat.isLoading = true ∧
    c.currentAid = some m.id

/-! ## Helper lemmas -/

theorem mergeChunk_append (xs ys : List Message) (aid : Nat) (acc : String) :
    mergeChunk (xs ++ ys) aid acc = mergeChunk xs aid acc ++ mergeChunk ys aid acc :=
  List.map_append _ _ _

theorem mergeChunk_of_fresh {xs : List Message} {aid : Nat} (acc : String)
    (h : ∀ m ∈ xs, m.id ≠ aid) : mergeChunk xs aid acc = xs := by
  induction xs with
  | nil => rfl
  | cons a t ih =>
      have ha : a.id ≠ aid := h a (by simp)
      have ht : ∀ m ∈ t, m.id ≠ aid := fun m hm => h m (by simp [hm])
      simp [mergeChunk, if_neg ha] at ih ⊢
      exact ih ht

theorem mergeChunk_mergeChunk (xs : List Message) (aid : Nat) (a1 a2 : String) :
    mergeChunk (mergeChunk xs aid a1) aid a2 = mergeChunk xs aid a2 := by
  induction xs with
  | nil => rfl
  | cons a t ih =>
      by_cases ha : a.id = aid <;>
        simp [mergeChunk, ha] at ih ⊢ <;> exact ih

theorem filter_ne_mergeChunk (xs : List Message) (aid : Nat) (acc : String) :
    (mergeChunk xs aid acc).filter (fun m => m.id ≠ aid)
      = xs.filter (fun m => m.id ≠ aid) := by
  induction xs with
  | nil => rfl
  | cons a t ih =>
      by_cases ha : a.id = aid <;>
        simp [mergeChunk, List.filter, ha] at ih ⊢ <;> exact ih

theorem streamLoop_snd (aid : Nat) : ∀ (cs : List String) (msgs : List Message) (acc : String),
    (streamLoop msgs aid acc cs).2 = acc ++ concatChunks cs := by
  intro cs
  induction cs with
  | nil => intro msgs acc; simp [streamLoop, concatChunks]
  | cons c cs ih =>
      intro msgs acc
      show (streamLoop (mergeChunk msgs aid (acc ++ c)) aid (acc ++ c) cs).2
        = acc ++ concatChunks (c :: cs)
      rw [ih, String.append_assoc]
      rfl

theorem streamLoop_fst (aid : Nat) : ∀ (cs : List String), cs ≠ [] →
    ∀ (msgs : List Message) (acc : String),
    (streamLoop msgs aid acc cs).1 = mergeChunk msgs aid (acc ++ concatChunks cs) := by
  intro cs
  induction cs with
  | nil => intro h; exact absurd rfl h
  | cons c cs ih =>
      intro _ msgs acc
      cases cs with
      | nil =>
          show mergeChunk msgs aid (acc ++ c) = mergeChunk msgs aid (acc ++ concatChunks [c])
          rw [show concatChunks [c] = c ++ "" from rfl, String.append_empty]
      | cons d ds =>
          show (streamLoop (mergeChunk msgs aid (acc ++ c)) aid (acc ++ c) (d :: ds)).1
            = mergeChunk msgs aid (acc ++ concatChunks (c :: d :: ds))
          rw [ih (by simp), mergeChunk_mergeChunk, String.append_assoc]
          rfl

theorem append_ne_empty_of_left {a : String} (b : String) (h : a ≠ "") : a ++ b ≠ "" := by
  intro hab
  apply h
  have hdata := congrArg String.data hab
  rw [String.data_append] at hdata
  have ha : a.data = [] := (List.append_eq_nil.mp hdata).1
  exact String.ext ha

theorem concatChunks_ne_empty {cs : List String} (hne : cs ≠ [])
    (h : ∀ c ∈ cs, c ≠ "") : concatChunks cs ≠ "" := by
  cases cs with
  | nil => exact absurd rfl hne
  | cons c cs => exact append_ne_empty_of_left _ (h c (by simp))

theorem processLines_cons (parse : String → Option (Option String))
    (line : String) (rest : List String) :
    processLines parse (line :: rest)
      = if listPrefixEq "data: ".toList line.toList then
          (if (⟨line.toList.drop 6⟩ : String) = "[DONE]" then []
           else match parse ⟨line.toList.drop 6⟩ with
             | none => processLines parse rest
             | some none => processLines parse rest
             | some (some c) =>
                 if c = "" then processLines parse rest
                 else c :: processLines parse rest)
        else processLines parse rest := rfl

/-! ## Claims -/

/-- **C1**: when the trimmed text is non-empty or the image list is non-empty
and no turn is in flight, `sendMessage`'s state update appends exactly one
user message followed by exactly one loading assistant message; when both
inputs are empty or a turn is in flight, the state is unchanged. -/
theorem sendMessage_appends_user_then_assistant
    (s : ChatState) (content : String) (images : List ImageAttachment) (uid aid : Nat) :
    (¬ sendBlocked s content images →
      (sendMessageStart s content images uid aid).messages
        = s.messages ++ [mkUserMessage uid content images, mkLoadingMessage aid]
      ∧ (mkUserMessage uid content images).role = Role.user
      ∧ (mkLoadingMessage aid).role = Role.assistant)
    ∧ (sendBlocked s content images →
        sendMessageStart s content images uid aid = s) := by
  constructor
  · intro h
    rw [sendMessageStart, if_neg h]
    exact ⟨rfl, rfl, rfl⟩
  · intro h
    rw [sendMessageStart, if_pos h]

/-- Witness for C1 at a concrete state: a send with text `"hi"` from the
empty idle state appends the pair; the same send is a no-op while loading. -/
theorem sendMessage_appends_user_then_assistant_witness :
    (sendMessageStart ⟨[], false, none⟩ "hi" [] 0 1).messages
      = [mkUserMessage 0 "hi" [], mkLoadingMessage 1]
    ∧ sendMessageStart ⟨[], true, none⟩ "hi" [] 0 1 = ⟨[], true, none⟩ :=
  ⟨((sendMessage_appends_user_then_assistant ⟨[], false, none⟩ "hi" [] 0 1).1
      (by decide)).1,
   (sendMessage_appends_user_then_assistant ⟨[], true, none⟩ "hi" [] 0 1).2
      (by decide)⟩

/-- **C4**: a turn whose provider stream completes normally after yielding
zero fragments finalizes the placeholder with the literal fallback text
`"No response generated."` (not the empty string) and `isLoading = false`. -/
theorem empty_stream_yields_fallback
    (s : ChatState) (content : String) (images : List ImageAttachment) (uid aid : Nat)
    (hok : ¬ sendBlocked s content images)
    (hfresh : ∀ m ∈ s.messages, m.id ≠ aid) (huid : uid ≠ aid) :
    (sendMessageRun s content images uid aid []).messages
      = s.messages ++ [mkUserMessage uid content images,
          { id := aid, content := "No response generated.", role := .assistant,
            isLoading := false, images := [] }]
    ∧ (sendMessageRun s content images uid aid []).isLoading = false := by
  rw [sendMessageRun, if_neg hok]
  refine ⟨?_, rfl⟩
  show (finalizeTurn _ aid (streamLoop (sendMessageStart s content images uid aid).messages aid "" []).2).messages = _
  rw [sendMessageStart, if_neg hok]
  show mergeChunk (s.messages ++ [mkUserMessage uid content images, mkLoadingMessage aid])
      aid (if ("" : String) = "" then "No response generated." else "") = _
  rw [if_pos rfl, mergeChunk_append, mergeChunk_of_fresh _ hfresh]
  simp [mergeChunk, mkUserMessage, mkLoadingMessage, huid]

/-- **C5**: a turn whose provider yields a non-empty list of (non-empty)
fragments and completes normally finalizes the placeholder with the
left-to-right concatenation of the fragments, with `isLoading = false`; the
placeholder's `isLoading` flag is already cleared by the first chunk-merge. -/
theorem stream_concat_roundtrip
    (s : ChatState) (content : String) (images : List ImageAttachment)
    (uid aid : Nat) (chunks : List String)
    (hok : ¬ sendBlocked s content images)
    (hfresh : ∀ m ∈ s.messages, m.id ≠ aid) (huid : uid ≠ aid)
    (hne : chunks ≠ []) (hnz : ∀ ch ∈ chunks, ch ≠ "") :
    (sendMessageRun s content images uid aid chunks).messages
      = s.messages ++ [mkUserMessage uid content images,
          { id := aid, content := concatChunks chunks, role := .assistant,
            isLoading := false, images := [] }]
    ∧ (sendMessageRun s content images uid aid chunks).isLoading = false
    ∧ ∀ ch rest, chunks = ch :: rest →
        mergeChunk (sendMessageStart s content images uid aid).messages aid ch
          = s.messages ++ [mkUserMessage uid content images,
              { id := aid, content := ch, role := .assistant,
                isLoading := false, images := [] }] := by
  refine ⟨?_, ?_, ?_⟩
  · rw [sendMessageRun, if_neg hok]
    show (finalizeTurn _ aid (streamLoop (sendMessageStart s content images uid aid).messages aid "" chunks).2).messages = _
    rw [finalizeTurn]
    show mergeChunk (streamLoop (sendMessageStart s content images uid aid).messages aid "" chunks).1 aid _ = _
    rw [streamLoop_fst aid chunks hne, streamLoop_snd aid chunks, String.empty_append,
      mergeChunk_mergeChunk,
      if_neg (concatChunks_ne_empty hne hnz),
      sendMessageStart, if_neg hok]
    show mergeChunk (s.messages ++ [mkUserMessage uid content images, mkLoadingMessage aid])
        aid (concatChunks chunks) = _
    rw [mergeChunk_append, mergeChunk_of_fresh _ hfresh]
    simp [mergeChunk, mkUserMessage, mkLoadingMessage, huid]
  · rw [sendMessageRun, if_neg hok]; rfl
  · intro ch rest hchunks
    rw [sendMessageStart, if_neg hok]
    show mergeChunk (s.messages ++ [mkUserMessage uid content images, mkLoadingMessage aid])
        aid ch = _
    rw [mergeChunk_append, mergeChunk_of_fresh _ hfresh]
    simp [mergeChunk, mkUserMessage, mkLoadingMessage, huid]

/-- **C6**: a turn in which the provider stream throws a non-abort error (after
any number of fragments) removes the loading placeholder entirely, sets the
conversation-level `error` to the error's message text, and clears the loading
flag; the resulting state contains no message with the placeholder's id. -/
theorem stream_error_removes_placeholder
    (s : ChatState) (content : String) (images : List ImageAttachment)
    (uid aid : Nat) (chunks : List String) (emsg : String)
    (hok : ¬ sendBlocked s content images)
    (hfresh : ∀ m ∈ s.messages, m.id ≠ aid) (huid : uid ≠ aid) :
    (sendMessageRunErr s content images uid aid chunks emsg).messages
      = s.messages ++ [mkUserMessage uid content images]
    ∧ (sendMessageRunErr s content images uid aid chunks emsg).error = some emsg
    ∧ (sendMessageRunErr s content images uid aid chunks emsg).isLoading = false
    ∧ ∀ m ∈ (sendMessageRunErr s content images uid aid chunks emsg).messages,
        m.id ≠ aid := by
  have hmsgs : (sendMessageRunErr s content images uid aid chunks emsg).messages
      = s.messages ++ [mkUserMessage uid content images] := by
    rw [sendMessageRunErr, if_neg hok]
    show ((streamLoop (sendMessageStart s content images uid aid).messages aid "" chunks).1.filter
        (fun m => m.id ≠ aid)) = _
    have hbase : (sendMessageStart s content images uid aid).messages.filter
        (fun m => m.id ≠ aid) = s.messages ++ [mkUserMessage uid content images] := by
      rw [sendMessageStart, if_neg hok]
      show ((s.messages ++ [mkUserMessage uid content images, mkLoadingMessage aid]).filter
          (fun m => m.id ≠ aid)) = _
      rw [List.filter_append, List.filter_eq_self.mpr (by
        intro m hm; simpa using hfresh m hm)]
      simp [mkUserMessage, mkLoadingMessage, huid]
    cases chunks with
    | nil => exact hbase
    | cons c cs =>
        rw [streamLoop_fst aid (c :: cs) (by simp), filter_ne_mergeChunk]
        exact hbase
  refine ⟨hmsgs, ?_, ?_, ?_⟩
  · rw [sendMessageRunErr, if_neg hok]; rfl
  · rw [sendMessageRunErr, if_neg hok]; rfl
  · rw [hmsgs]
    intro m hm
    rcases List.mem_append.mp hm with h | h
    · exact hfresh m h
    · simp at h
      rw [h]
      exact huid

/-- Witness for C4: an empty fragment stream from the idle empty state ends
with the fallback placeholder text. -/
theorem empty_stream_yields_fallback_witness :
    (sendMessageRun ⟨[], false, none⟩ "hi" [] 0 1 []).messages
      = [mkUserMessage 0 "hi" [],
          { id := 1, content := "No response generated.", role := .assistant,
            isLoading := false, images := [] }]
    ∧ (sendMessageRun ⟨[], false, none⟩ "hi" [] 0 1 []).isLoading = false :=
  empty_stream_yields_fallback ⟨[], false, none⟩ "hi" [] 0 1
    (by decide) (by simp) (by decide)

/-- Witness for C5: fragments `["Hel", "lo"]` finalize to content `"Hello"`. -/
theorem stream_concat_roundtrip_witness :
    (sendMessageRun ⟨[], false, none⟩ "hi" [] 0 1 ["Hel", "lo"]).messages
      = [mkUserMessage 0 "hi" [],
          { id := 1, content := "Hello", role := .assistant,
            isLoading := false, images := [] }]
    ∧ (sendMessageRun ⟨[], false, none⟩ "hi" [] 0 1 ["Hel", "lo"]).isLoading = false := by
  have h := stream_concat_roundtrip ⟨[], false, none⟩ "hi" [] 0 1 ["Hel", "lo"]
    (by decide) (by simp) (by decide) (by decide) (by decide)
  refine ⟨?_, h.2.1⟩
  rw [h.1]
  decide

/-- Witness for C6: a provider error after one fragment removes the
placeholder, surfaces the error message, and clears the loading flag. -/
theorem stream_error_removes_placeholder_witness :
    (sendMessageRunErr ⟨[], false, none⟩ "hi" [] 0 1 ["x"] "boom").messages
      = [mkUserMessage 0 "hi" []]
    ∧ (sendMessageRunErr ⟨[], false, none⟩ "hi" [] 0 1 ["x"] "boom").error = some "boom"
    ∧ (sendMessageRunErr ⟨[], false, none⟩ "hi" [] 0 1 ["x"] "boom").isLoading = false := by
  have h := stream_error_removes_placeholder ⟨[], false, none⟩ "hi" [] 0 1 ["x"] "boom"
    (by decide) (by simp) (by decide)
  exact ⟨h.1, h.2.1, h.2.2.1⟩

/-! ## The loading invariant (C2) -/

theorem no_loading_of_flag_false {c : CtrlState} (hInv : LoadingInv c)
    (hflag : c.chat.isLoading = false) : ∀ m ∈ c.chat.messages, m.isLoading = false := by
  intro m hm
  cases hml : m.isLoading with
  | false => rfl
  | true =>
      have := (hInv.2 m hm hml).2.1
      rw [hflag] at this
      cases this

theorem loadingInv_of_none {c : CtrlState}
    (h : ∀ m ∈ c.chat.messages, m.isLoading = false) : LoadingInv c := by
  constructor
  · have hfil : c.chat.messages.filter (fun m => m.isLoading) = [] := by
      rw [List.filter_eq_nil_iff]
      intro a ha
      simp [h a ha]
    rw [hfil]
    exact Nat.zero_le 1
  · intro m hm hml
    rw [h m hm] at hml
    cases hml

theorem loadingInv_append {ys : List Message} (aid : Nat) (e : Option String)
    (h : ∀ m ∈ ys, m.isLoading = false) :
    LoadingInv ⟨⟨ys ++ [mkLoadingMessage aid], true, e⟩, some aid⟩ := by
  constructor
  · show ((ys ++ [mkLoadingMessage aid]).filter (fun m => m.isLoading)).length ≤ 1
    rw [List.filter_append]
    have hfil : ys.filter (fun m => m.isLoading) = [] := by
      rw [List.filter_eq_nil_iff]
      intro a ha
      simp [h a ha]
    rw [hfil]
    simp [mkLoadingMessage, List.filter]
  · intro m hm hml
    rcases List.mem_append.mp hm with hys | hl
    · rw [h m hys] at hml
      cases hml
    · simp at hl
      subst hl
      exact ⟨List.getLast?_concat _, rfl, rfl⟩

theorem mem_removeTrailingAssistant {m : Message} {xs : List Message}
    (h : m ∈ removeTrailingAssistant xs) : m ∈ xs := by
  unfold removeTrailingAssistant at h
  split at h
  · split at h
    · exact List.mem_of_mem_dropLast h
    · exact h
  · exact h

theorem stepPreservesLoadingInv (c c' : CtrlState)
    (hInv : LoadingInv c) (hst : Step c c') : LoadingInv c' := by
  cases hst with
  | send content images uid aid =>
      by_cases hb : sendBlocked c.chat content images
      · have hc : sendStartC c content images uid aid = c := by
          simp [sendStartC, sendMessageStart, hb]
        rw [hc]
        exact hInv
      · have hflag : c.chat.isLoading = false := by
          rcases Bool.eq_false_or_eq_true c.chat.isLoading with h | h
          · exact absurd (Or.inr h) hb
          · exact h
        have hnl := no_loading_of_flag_false hInv hflag
        have hc : sendStartC c content images uid aid
            = ⟨⟨(c.chat.messages ++ [mkUserMessage uid content images])
                  ++ [mkLoadingMessage aid], true, none⟩, some aid⟩ := by
          simp [sendStartC, sendMessageStart, hb]
        rw [hc]
        apply loadingInv_append
        intro m hm
        rcases List.mem_append.mp hm with h1 | h2
        · exact hnl m h1
        · simp at h2
          subst h2
          rfl
  | chunk acc =>
      cases haid : c.currentAid with
      | none =>
          have hc : chunkStepC c acc = c := by simp [chunkStepC, haid]
          rw [hc]
          exact hInv
      | some aid =>
          have hc : chunkStepC c acc
              = ⟨⟨mergeChunk c.chat.messages aid acc, c.chat.isLoading, c.chat.error⟩,
                  c.currentAid⟩ := by
            simp [chunkStepC, haid]
          rw [hc]
          apply loadingInv_of_none
          intro m hm
          simp only [mergeChunk, List.mem_map] at hm
          obtain ⟨a, ha, rfl⟩ := hm
          by_cases hid : a.id = aid
          · simp [hid]
          · rw [if_neg hid]
            cases hml : a.isLoading with
            | false => rfl
            | true =>
                have := (hInv.2 a ha hml).2.2
                rw [haid] at this
                injection this with h2
                exact absurd h2.symm hid
  | settle acc =>
      cases haid : c.currentAid with
      | none =>
          have hc : finalizeC c acc = c := by simp [finalizeC, haid]
          rw [hc]
          exact hInv
      | some aid =>
          have hc : finalizeC c acc
              = ⟨⟨mergeChunk c.chat.messages aid
                    (if acc = "" then "No response generated." else acc),
                  false, c.chat.error⟩, none⟩ := by
            simp [finalizeC, haid, finalizeTurn]
          rw [hc]
          apply loadingInv_of_none
          intro m hm
          simp only [mergeChunk, List.mem_map] at hm
          obtain ⟨a, ha, rfl⟩ := hm
          by_cases hid : a.id = aid
          · simp [hid]
          · rw [if_neg hid]
            cases hml : a.isLoading with
            | false => rfl
            | true =>
                have := (hInv.2 a ha hml).2.2
                rw [haid] at this
                injection this with h2
                exact absurd h2.symm hid
  | fail emsg =>
      cases haid : c.currentAid with
      | none =>
          have hc : errorC c emsg = c := by simp [errorC, haid]
          rw [hc]
          exact hInv
      | some aid =>
          have hc : errorC c emsg
              = ⟨⟨c.chat.messages.filter (fun m => m.id ≠ aid), false, some emsg⟩, none⟩ := by
            simp [errorC, haid, errorTurn]
          rw [hc]
          apply loadingInv_of_none
          intro m hm
          have hmem := List.mem_of_mem_filter hm
          have hpred := List.of_mem_filter hm
          simp only [decide_eq_true_eq] at hpred
          cases hml : m.isLoading with
          | false => rfl
          | true =>
              have := (hInv.2 m hmem hml).2.2
              rw [haid] at this
              injection this with h2
              exact absurd h2.symm hpred
  | clear =>
      apply loadingInv_of_none
      intro m hm
      simp [clearC, clearChat] at hm
  | retry aid =>
      by_cases hb : retryBlocked c.chat
      · have hc : retryStartC c aid = c := by
          simp [retryStartC, retryStart, hb]
        rw [hc]
        exact hInv
      · have hflag : c.chat.isLoading = false := by
          rcases Bool.eq_false_or_eq_true c.chat.isLoading with h | h
          · exact absurd (Or.inr h) hb
          · exact h
        have hnl := no_loading_of_flag_false hInv hflag
        have hc : retryStartC c aid
            = ⟨⟨removeTrailingAssistant c.chat.messages ++ [mkLoadingMessage aid],
                  true, none⟩, some aid⟩ := by
          simp [retryStartC, retryStart, hb]
        rw [hc]
        apply loadingInv_append
        intro m hm
        exact hnl m (mem_removeTrailingAssistant hm)

/-- **C2**: every controller operation (send start, retry start, each
chunk-merge, settle, fail, clear) preserves the loading invariant — at most
one message has `isLoading = true`, and a loading message is the last element
with the turn pending on it — and the invariant holds at every reachable
controller state. -/
theorem loading_invariant_holds :
    (∀ c c', LoadingInv c → Step c c' → LoadingInv c')
    ∧ ∀ c, Reachable c → LoadingInv c := by
  refine ⟨stepPreservesLoadingInv, ?_⟩
  intro c h
  induction h with
  | init =>
      apply loadingInv_of_none
      intro m hm
      simp [initCtrl] at hm
  | step hr hst ih => exact stepPreservesLoadingInv _ _ ih hst

/-- Witness for C2: the invariant at the initial state and after a concrete
send operation, obtained from the claim's theorem. -/
theorem loading_invariant_holds_witness :
    LoadingInv initCtrl ∧ LoadingInv (sendStartC initCtrl "hi" [] 0 1) := by
  have h0 : LoadingInv initCtrl := loading_invariant_holds.2 initCtrl Reachable.init
  exact ⟨h0, loading_invariant_holds.1 _ _ h0 (Step.send initCtrl "hi" [] 0 1)⟩

/-- **C7**: in the raw-HTTP provider's per-line processing, a `data: [DONE]`
line terminates the fragment sequence — lines after it contribute nothing —
and a `data: ` line whose payload fails to parse is skipped without aborting
the stream. -/
theorem done_sentinel_ends_stream (parse : String → Option (Option String))
    (l1 l2 : List String) :
    processLines parse (l1 ++ "data: [DONE]" :: l2)
      = processLines parse (l1 ++ ["data: [DONE]"])
    ∧ ∀ line, listPrefixEq "data: ".toList line.toList = true →
        (⟨line.toList.drop 6⟩ : String) ≠ "[DONE]" →
        parse ⟨line.toList.drop 6⟩ = none →
        processLines parse (l1 ++ line :: l2) = processLines parse (l1 ++ l2) := by
  constructor
  · induction l1 with
    | nil => rfl
    | cons a t ih =>
        show processLines parse (a :: (t ++ "data: [DONE]" :: l2))
          = processLines parse (a :: (t ++ ["data: [DONE]"]))
        simp only [processLines]
        split
        · split
          · rfl
          · split <;> simp [ih]
        · exact ih
  · intro line h1 h2 h3
    induction l1 with
    | nil =>
        show processLines parse (line :: l2) = processLines parse l2
        rw [processLines_cons, if_pos h1, if_neg h2, h3]
    | cons a t ih =>
        show processLines parse (a :: (t ++ line :: l2))
          = processLines parse (a :: (t ++ l2))
        simp only [processLines]
        split
        · split
          · rfl
          · split <;> simp [ih]
        · exact ih

/-- Witness for C7: with a parser that always fails, a `[DONE]` line stops the
stream before a later `data: ` line, and an unparseable `data: ` line is
dropped. -/
theorem done_sentinel_ends_stream_witness :
    processLines (fun _ => none) (["data: a"] ++ "data: [DONE]" :: ["data: b"])
      = processLines (fun _ => none) (["data: a"] ++ ["data: [DONE]"])
    ∧ processLines (fun _ => none) (["x"] ++ "data: bad" :: ["y"])
      = processLines (fun _ => none) (["x"] ++ ["y"]) :=
  ⟨(done_sentinel_ends_stream (fun _ => none) ["data: a"] ["data: b"]).1,
   (done_sentinel_ends_stream (fun _ => none) ["x"] ["y"]).2 "data: bad"
     (by decide) (by decide) rfl⟩

/-- **C8**: with no prior user message, `retryLastMessage` leaves the state
unchanged; with a user message present, no turn in flight, distinct message
ids and a trailing assistant message, it replaces that trailing assistant
message by a fresh loading placeholder, and the history it sends is every
non-trailing-assistant message with the most recent user message re-appended
at the end. -/
theorem retry_rebuilds_history (s : ChatState) (aid : Nat) :
    (lastUser? s.messages = none → retryStart s aid = s)
    ∧ ∀ lu la, s.isLoading = false → lastUser? s.messages = some lu →
        s.messages.getLast? = some la → la.role = Role.assistant →
        (s.messages.map Message.id).Nodup →
        (retryStart s aid).messages = s.messages.dropLast ++ [mkLoadingMessage aid]
        ∧ retryHistory s.messages = s.messages.dropLast ++ [lu] := by
  constructor
  · intro h
    rw [retryStart, if_pos (show retryBlocked s from Or.inl h)]
  · intro lu la hflag hlu hla hrole hnodup
    have hnb : ¬ retryBlocked s := by
      intro hb
      rcases hb with h | h
      · rw [hlu] at h; cases h
      · rw [hflag] at h; cases h
    have hmsgs_eq : s.messages.dropLast ++ [la] = s.messages :=
      List.dropLast_append_getLast? la hla
    have hid : ∀ m ∈ s.messages.dropLast, m.id ≠ la.id := by
      intro m hm heq
      rw [← hmsgs_eq, List.map_append] at hnodup
      rcases List.nodup_append.mp hnodup with ⟨_, _, hdisj⟩
      exact hdisj (List.mem_map_of_mem Message.id hm) (by simp [heq])
    constructor
    · rw [retryStart, if_neg hnb]
      show removeTrailingAssistant s.messages ++ [mkLoadingMessage aid] = _
      simp [removeTrailingAssistant, hla, hrole]
    · simp only [retryHistory, hlu, hla]
      congr 1
      conv_lhs => rw [← hmsgs_eq]
      rw [List.filter_append]
      have hkeep : ∀ m ∈ s.messages.dropLast,
          (decide (m.role = Role.user) || decide (m.id ≠ la.id)) = true := by
        intro m hm
        simp [hid m hm]
      rw [List.filter_eq_self.mpr hkeep]
      simp [List.filter, hrole]

/-- Witness for C8: retry on the empty state is a no-op; retry on
`[user "q", assistant "r"]` drops the assistant reply, appends a fresh
placeholder, and sends `[user "q", user "q"]` as history. -/
theorem retry_rebuilds_history_witness :
    retryStart ⟨[], false, none⟩ 5 = ⟨[], false, none⟩
    ∧ (retryStart ⟨[⟨0, "q", .user, false, []⟩, ⟨1, "r", .assistant, false, []⟩],
        false, none⟩ 2).messages
        = [⟨0, "q", .user, false, []⟩, mkLoadingMessage 2]
    ∧ retryHistory [⟨0, "q", .user, false, []⟩, ⟨1, "r", .assistant, false, []⟩]
        = [⟨0, "q", .user, false, []⟩, ⟨0, "q", .user, false, []⟩] := by
  have h1 := (retry_rebuilds_history ⟨[], false, none⟩ 5).1 rfl
  have h2 := (retry_rebuilds_history
      ⟨[⟨0, "q", .user, false, []⟩, ⟨1, "r", .assistant, false, []⟩], false, none⟩ 2).2
      ⟨0, "q", .user, false, []⟩ ⟨1, "r", .assistant, false, []⟩
      rfl (by decide) (by decide) rfl (by decide)
  refine ⟨h1, ?_, ?_⟩
  · rw [h2.1]; decide
  · rw [h2.2]; decide

/-- **C9**: both provider constructors throw when the configured API key is
absent/empty, and with a non-empty key construction succeeds and
`isConfigured()` returns `true`. -/
theorem provider_requires_apiKey (config : LLMConfig) :
    (config.apiKey = "" →
      GoogleGenAIProvider.construct config
        = Except.error "Google GenAI API key is required"
      ∧ OpenAIProvider.construct config = Except.error "OpenAI API key is required")
    ∧ (config.apiKey ≠ "" →
      ∃ g, GoogleGenAIProvider.construct config = Except.ok g ∧ g.isConfigured = true)
    ∧ (config.apiKey ≠ "" →
      ∃ p, OpenAIProvider.construct config = Except.ok p ∧ p.isConfigured = true) := by
  refine ⟨?_, ?_, ?_⟩
  · intro h
    constructor
    · rw [GoogleGenAIProvider.construct, if_pos h]
    · rw [OpenAIProvider.construct, if_pos h]
  · intro h
    exact ⟨_, by rw [GoogleGenAIProvider.construct, if_neg h], rfl⟩
  · intro h
    refine ⟨_, by rw [OpenAIProvider.construct, if_neg h], ?_⟩
    simp [OpenAIProvider.isConfigured, bne_iff_ne]
    exact h

/-- Witness for C9 at concrete configurations: key `""` fails both
constructors, key `"k"` succeeds with `isConfigured() = true`. -/
theorem provider_requires_apiKey_witness :
    (GoogleGenAIProvider.construct ⟨"", none, none⟩
        = Except.error "Google GenAI API key is required"
      ∧ OpenAIProvider.construct ⟨"", none, none⟩
        = Except.error "OpenAI API key is required")
    ∧ (∃ g, GoogleGenAIProvider.construct ⟨"k", none, none⟩ = Except.ok g
        ∧ g.isConfigured = true)
    ∧ (∃ p, OpenAIProvider.construct ⟨"k", none, none⟩ = Except.ok p
        ∧ p.isConfigured = true) :=
  ⟨(provider_requires_apiKey ⟨"", none, none⟩).1 rfl,
   (provider_requires_apiKey ⟨"k", none, none⟩).2.1 (by decide),
   (provider_requires_apiKey ⟨"k", none, none⟩).2.2 (by decide)⟩

/-- **C10**: the Google GenAI mapping sends role `"user"` for user turns and
role `"model"` for assistant *and* system turns (so no `system` wire role is
ever transmitted), maps each turn to exactly one content (length preserved),
and maps a turn with empty content and no images to an empty parts list
rather than dropping it. -/
theorem google_role_mapping (prompt : String) (msgs : List LLMMessage) :
    (∀ msg ∈ msgs,
      (msg.role = LLMRole.user → (toGoogleContent prompt msg).role = "user")
      ∧ (msg.role = LLMRole.assistant → (toGoogleContent prompt msg).role = "model")
      ∧ (msg.role = LLMRole.system → (toGoogleContent prompt msg).role = "model")
      ∧ (msg.content = "" → msg.images = [] → (toGoogleContent prompt msg).parts = []))
    ∧ (msgs.map (toGoogleContent prompt)).length = msgs.length
    ∧ ∀ c ∈ googleContents prompt msgs, c.role = "user" ∨ c.role = "model" := by
  have hmap : ∀ c ∈ msgs.map (toGoogleContent prompt),
      c.role = "user" ∨ c.role = "model" := by
    intro c hc
    obtain ⟨msg, _, rfl⟩ := List.mem_map.mp hc
    by_cases h : msg.role = LLMRole.user
    · exact Or.inl (by simp [toGoogleContent, h])
    · exact Or.inr (by simp [toGoogleContent, h])
  refine ⟨?_, List.length_map _ _, ?_⟩
  · intro msg _
    refine ⟨fun h => by simp [toGoogleContent, h],
            fun h => by simp [toGoogleContent, h],
            fun h => by simp [toGoogleContent, h],
            fun h1 h2 => by simp [toGoogleContent, h1, h2]⟩
  · intro c hc
    simp only [googleContents] at hc
    split at hc
    · rcases List.mem_cons.mp hc with rfl | h
      · exact Or.inr rfl
      · exact hmap _ h
    · exact hmap _ hc

/-- Witness for C10: a system turn is transmitted with wire role `"model"`,
and an empty assistant turn keeps an empty parts list. -/
theorem google_role_mapping_witness :
    (toGoogleContent "P" ⟨LLMRole.system, "s", []⟩).role = "model"
    ∧ (toGoogleContent "P" ⟨LLMRole.assistant, "", []⟩).parts = [] := by
  have h := google_role_mapping "P"
    [⟨LLMRole.system, "s", []⟩, ⟨LLMRole.assistant, "", []⟩]
  exact ⟨(h.1 _ (by simp)).2.2.1 rfl, (h.1 _ (by simp)).2.2.2 rfl rfl⟩

/-- **C3** (evaluation of the code at the claim's inputs): the keyword scan
fires on `"quadratic"` and injects exactly one synthetic turn immediately
before the real history, and injects nothing for `"hello world"` — but the
injected turn's only text part is the *empty string*: the LaTeX-formatting
instruction body is commented out in `createMathInstruction`, contradicting
that method's own doc comment. -/
theorem mathInstruction_injected_but_empty :
    googleContents "P" [⟨LLMRole.user, "quadratic", []⟩]
      = createMathInstruction :: [⟨LLMRole.user, "quadratic", []⟩].map (toGoogleContent "P")
    ∧ createMathInstruction.parts = [GPart.text ""]
    ∧ googleContents "P" [⟨LLMRole.user, "hello world", []⟩]
      = [⟨LLMRole.user, "hello world", []⟩].map (toGoogleContent "P") := by
  refine ⟨?_, rfl, ?_⟩ <;> decide

end ChatApp
